import Mathlib

/-!
Shallow embedding of the reconciliation pipeline of `src/main.py`
(product-data-convert).

Modelling conventions:
* Python dicts are association lists `List (String × α)` with insertion
  order preserved (Python 3.7+ dict semantics): assignment to an existing
  key keeps its position, a new key is appended at the end.
* Python sets that are only used for membership tests are plain
  `List String` accumulators (possible duplicate entries do not change
  membership).
* CSV cells are `String`s; numeric cells that the source parses with a
  "parse failure means 0" policy enter the model already parsed (the
  parsing itself is not the subject of any claim).  Quantities are `Int`
  before clamping and `Nat` after `max(_, 0)` clamping (`Int.toNat`).
* The float-valued fields `cost`, `price` and `weight`, and the
  `int(float(...))` cast of `puff_counts`, are carried through the source
  unchanged by every step a claim talks about; they are elided from the
  record types (no claim mentions their values).
* `str.strip()` is `trimS` and `str.lower()` is `lowerS` below, defined
  over `List Char` so that concrete runs reduce inside the kernel.
-/

namespace PDC

/-- Python `str.strip()`: drop leading and trailing whitespace. -/
def trimS (s : String) : String :=
  String.mk (((s.toList.dropWhile Char.isWhitespace).reverse.dropWhile Char.isWhitespace).reverse)

/-- Python `str.lower()` (ASCII case folding). -/
def lowerS (s : String) : String :=
  String.mk (s.toList.map Char.toLower)

/-- Association-list lookup, mirroring Python `dict.get` / `in`. -/
def lookupA {α : Type} : List (String × α) → String → Option α
  | [], _ => none
  | (k', v) :: t, k => if k' = k then some v else lookupA t k

/-- Association-list assignment `d[k] = v`, mirroring Python dict update:
an existing key keeps its insertion position, a new key is appended. -/
def setA {α : Type} : List (String × α) → String → α → List (String × α)
  | [], k, v => [(k, v)]
  | (k', v') :: t, k, v => if k' = k then (k', v) :: t else (k', v') :: setA t k v

/-! ### Data model -/

/-- One row of the DuoPlane vendor-mapping CSV (`load_duoplane_mapping`). -/
structure DuoRow where
  vendor_name : String
  vendor_sku : String
  retailer_sku : String
deriving Repr, DecidableEq

/-- One row of the inventory CSV, with the numeric cells already parsed by
the source's "parse failure means 0" policy (`main.py` lines 137-160):
`quantity` is the parsed `Quantity` cell, `qty_1` the parsed `Qty_1` cell. -/
structure RawInvRow where
  sku : String
  quantity : Int
  qty_1 : Int
  location_1 : String
  upc : String
deriving Repr, DecidableEq

/-- An entry of `inventory_rows` built by the first pass of
`load_inventory_data` (`main.py` lines 173-184). -/
structure InvRow where
  vendor_sku : String
  retail_sku : String
  total_qty : Int
  location_qty : Int
  location : String
  upc : String
  row_index : Nat
deriving Repr, DecidableEq

/-- The `product_details` record stored in `inventory_sku_map`
(`main.py` lines 222-231); float fields elided, see module comment. -/
structure InvRecord where
  qty : Nat
  upc : String
  retail_sku : String
  locations : List (String × Nat)
  row_index : Nat
deriving Repr, DecidableEq

/-- A catalog row as threaded through `clean_and_aggregate_magento_csv`:
the CSV columns the pipeline reads or writes, plus the derived columns
(`pack_size`, `canonical_name`, `single_product_sku`, `original_qty`,
`upc`, `locations`, `retail_sku`).  Derived columns are absent from the
catalog CSV and enter as defaults; `qty` is overwritten for every row
before it is ever read (`main.py` lines 332-344). -/
structure Row where
  sku : String := ""
  attribute_set_code : String := ""
  unit_per_pack : String := ""
  product_type : String := ""
  name : String := ""
  parent_sku : String := ""
  brand : String := ""
  flavor : String := ""
  nicotine_level : String := ""
  puff_counts : String := ""
  volume : String := ""
  resistance : String := ""
  qty : Nat := 0
  upc : String := ""
  locations : String := ""
  retail_sku : String := ""
  pack_size : Nat := 0
  canonical_name : String := ""
  single_product_sku : String := ""
  original_qty : Nat := 0
deriving Repr, DecidableEq

/-! ### `extract_pack_size` (`main.py` lines 4-25)

The regex `(\d+)[- ]?[Pp]ack` is matched without backtracking: the digit
run `\d+` is taken greedily (giving a digit back would force `[- ]?` or
`[Pp]` to match a digit, which fails), and if an actual `-` or space
separator is present, not consuming it would force `[Pp]` to match that
separator, which also fails.  `re.search` tries start positions left to
right, which `searchPack` reproduces. -/

/-- Greedy digit-run prefix: the digits and the rest of the input. -/
def digitsTake : List Char → List Char × List Char
  | [] => ([], [])
  | c :: cs =>
    if c.isDigit then
      let p := digitsTake cs
      (c :: p.1, p.2)
    else ([], c :: cs)

/-- Value of a digit string, as Python `int` of the matched group. -/
def natOfDigits (ds : List Char) : Nat :=
  ds.foldl (fun n c => n * 10 + (c.toNat - 48)) 0

/-- Try to match `(\d+)[- ]?[Pp]ack` at the head of the input, returning
the value of the captured digit group. -/
def matchPackAt (cs : List Char) : Option Nat :=
  let p := digitsTake cs
  if p.1 = [] then none
  else
    let rest :=
      match p.2 with
      | c :: cs' => if c = '-' ∨ c = ' ' then cs' else p.2
      | [] => p.2
    match rest with
    | c1 :: c2 :: c3 :: c4 :: _ =>
      if (c1 = 'P' ∨ c1 = 'p') ∧ c2 = 'a' ∧ c3 = 'c' ∧ c4 = 'k' then
        some (natOfDigits p.1)
      else none
    | _ => none

/-- Leftmost match of `(\d+)[- ]?[Pp]ack`, as `re.search`. -/
def searchPack : List Char → Option Nat
  | [] => none
  | c :: cs =>
    match matchPackAt (c :: cs) with
    | some n => some n
    | none => searchPack cs

/-- Leftmost match of `(\d+)`, as `re.search`: the first maximal digit
run, read as a number. -/
def searchFirstNat : List Char → Option Nat
  | [] => none
  | c :: cs =>
    if c.isDigit then some (natOfDigits (digitsTake (c :: cs)).1)
    else searchFirstNat cs

/-- `extract_pack_size` (`main.py` lines 4-25). -/
def extract_pack_size (product_name unit_per_pack_str : String) : Nat :=
  if lowerS (trimS unit_per_pack_str) ∈ ["single disposable", "single", "one"] then 1
  else
    match searchPack product_name.toList with
    | some n => n
    | none =>
      if unit_per_pack_str ≠ "" then
        match searchFirstNat unit_per_pack_str.toList with
        | some n => n
        | none => 1
      else 1

/-! ### Canonical names (`main.py` lines 57-90) -/

/-- The per-attribute test shared by `generate_canonical_name` and
`should_generate_canonical_name`: non-empty and not a literal zero after
trimming and lowercasing. -/
def meaningful (s : String) : Bool :=
  let a := lowerS (trimS s)
  decide (a ≠ "" ∧ a ≠ "0" ∧ a ≠ "0.0")

/-- `should_generate_canonical_name` (`main.py` lines 79-90). -/
def should_generate_canonical_name (volume nicotine_level flavor resistance : String) : Bool :=
  [volume, nicotine_level, flavor, resistance].any meaningful

/-- `generate_canonical_name` (`main.py` lines 57-77). -/
def generate_canonical_name
    (base_name category brand volume nicotine_level flavor resistance : String) : String :=
  let b := lowerS (trimS base_name)
  let c := lowerS (trimS category)
  let br := lowerS (trimS brand)
  let canonical := if c ≠ "" ∧ br ≠ "" then c ++ "_" ++ br ++ "_" ++ b else b
  let attrs := [volume, nicotine_level, flavor, resistance].filterMap (fun a =>
    let s := lowerS (trimS a)
    if s ≠ "" ∧ s ≠ "0" ∧ s ≠ "0.0" then some s else none)
  if attrs ≠ [] then canonical ++ " | " ++ String.intercalate " | " attrs else canonical

/-! ### `load_duoplane_mapping` (`main.py` lines 27-54) -/

/-- Build the vendor-SKU to retail-SKU mapping, restricted to vendor
`NV01`, skipping rows where either trimmed SKU is empty; later rows with
the same vendor SKU overwrite earlier ones. -/
def load_duoplane_mapping (rows : List DuoRow) : List (String × String) :=
  rows.foldl (fun m r =>
    if trimS r.vendor_name = "NV01" then
      let v := trimS r.vendor_sku
      let t := trimS r.retailer_sku
      if v ≠ "" ∧ t ≠ "" then setA m v t else m
    else m) []

/-! ### `load_inventory_data` (`main.py` lines 93-267)

The source builds `inventory_rows`, `upc_to_sku_map` and `duplicate_upcs`
in one loop (lines 121-184); the three accumulators are independent of
one another, so they are modelled as separate passes over the same rows
in the same order. -/

/-- The `InvRow` built from one raw row at `enumerate` index `i`
(lines 124-184): trimmed fields, with `retail_sku` falling back to the
vendor SKU when the DuoPlane mapping has no entry. -/
def mkInvRow (duo : List (String × String)) (i : Nat) (raw : RawInvRow) : InvRow :=
  { vendor_sku := trimS raw.sku,
    retail_sku := (lookupA duo (trimS raw.sku)).getD (trimS raw.sku),
    total_qty := raw.quantity,
    location_qty := raw.qty_1,
    location := trimS raw.location_1,
    upc := trimS raw.upc,
    row_index := i }

/-- The `inventory_rows` list of the first pass, starting at `enumerate`
index `i`: rows with an empty trimmed `SKU` are skipped, but the index
still advances, as `enumerate` counts skipped rows too (lines 123-184). -/
def pass1RowsFrom (duo : List (String × String)) (i : Nat) :
    List RawInvRow → List InvRow
  | [] => []
  | raw :: t =>
    if trimS raw.sku = "" then pass1RowsFrom duo (i + 1) t
    else mkInvRow duo i raw :: pass1RowsFrom duo (i + 1) t

/-- The `inventory_rows` list of the first pass (lines 123-184). -/
def pass1Rows (duo : List (String × String)) (raws : List RawInvRow) : List InvRow :=
  pass1RowsFrom duo 0 raws

/-- The UPC tracking of the first pass (lines 165-170): `upc_to_sku_map`
records the first vendor SKU seen for each non-empty UPC, and
`duplicate_upcs` collects every UPC seen again afterwards. -/
def trackUpcs (raws : List RawInvRow) : List (String × String) × List String :=
  raws.foldl (fun acc raw =>
    let vendor_sku := trimS raw.sku
    if vendor_sku = "" then acc
    else
      let upc := trimS raw.upc
      if upc ≠ "" then
        if (lookupA acc.1 upc).isSome then (acc.1, acc.2 ++ [upc])
        else (acc.1 ++ [(upc, vendor_sku)], acc.2)
      else acc) ([], [])

/-- The duplicate-UPC rewrite of the second pass (lines 200-218): a row
whose UPC is in conflict and whose vendor SKU is not the first-seen one
gets the suffix `1 +` the number of earlier rows (by `row_index`) that
share the UPC but belong neither to the first-seen vendor SKU nor to this
row's own vendor SKU. -/
def fixUpc (allRows : List InvRow) (upcMap : List (String × String))
    (dups : List String) (r : InvRow) : String :=
  if r.upc ∈ dups then
    if lookupA upcMap r.upc = some r.vendor_sku then r.upc
    else
      let conflict_count := 1 + (allRows.filter (fun o =>
        decide (o.upc = r.upc ∧ ¬ lookupA upcMap r.upc = some o.vendor_sku ∧
          o.vendor_sku ≠ r.vendor_sku ∧ o.row_index < r.row_index))).length
      r.upc ++ toString conflict_count
  else r.upc

/-- The location merge of lines 239-240: a non-empty location overwrites
the stored quantity for that location with the row's clamped
per-location quantity (`setA [] k v = [(k, v)]`, so this also covers the
initial-store form of line 247). -/
def locStep (L : List (String × Nat)) (r : InvRow) : List (String × Nat) :=
  if r.location ≠ "" then setA L r.location r.location_qty.toNat else L

/-- The duplicate-SKU merge of lines 238-243: merge the row's location
and add its clamped quantity to the running total. -/
def recStep (rc : InvRecord) (r : InvRow) : InvRecord :=
  { rc with locations := locStep rc.locations r, qty := rc.qty + r.total_qty.toNat }

/-- The fresh `product_details` record of lines 222-231 and 246-247. -/
def initRec (allRows : List InvRow) (upcMap : List (String × String))
    (dups : List String) (r : InvRow) : InvRecord :=
  { qty := r.total_qty.toNat,
    upc := fixUpc allRows upcMap dups r,
    retail_sku := r.retail_sku,
    locations := locStep [] r,
    row_index := r.row_index }

/-- One step of the second pass (lines 222-248): a first occurrence of a
vendor SKU appends a new `InvRecord`; a duplicate merges its non-empty
location (last write wins per location) and adds its clamped quantity to
the running total.  The rewritten UPC computed for a duplicate row is
discarded, exactly as in the source. -/
def mergeRow (allRows : List InvRow) (upcMap : List (String × String))
    (dups : List String) (m : List (String × InvRecord)) (r : InvRow) :
    List (String × InvRecord) :=
  match lookupA m r.vendor_sku with
  | some prev => setA m r.vendor_sku (recStep prev r)
  | none => m ++ [(r.vendor_sku, initRec allRows upcMap dups r)]

/-- `load_inventory_data` (`main.py` lines 93-267), returning the
`inventory_sku_map`; the returned duplicate counters are only printed by
the source and are not modelled. -/
def load_inventory_data (duoRows : List DuoRow) (raws : List RawInvRow) :
    List (String × InvRecord) :=
  let duo := load_duoplane_mapping duoRows
  let rows := pass1Rows duo raws
  let tracked := trackUpcs raws
  rows.foldl (mergeRow rows tracked.1 tracked.2) []

/-! ### `clean_and_aggregate_magento_csv` (`main.py` lines 269-503) -/

/-- Serialize a locations map as the source's
`';'.join(f"loc:qty" for ...)` (line 340 and 485). -/
def serializeLocations (ls : List (String × Nat)) : String :=
  String.intercalate ";" (ls.map (fun p => p.1 ++ ":" ++ toString p.2))

/-- The linear scan of lines 324-329: the first inventory entry (in
insertion order) whose non-empty `retail_sku` equals the catalog SKU. -/
def findRetailMatch (inv : List (String × InvRecord)) (sku : String) : Option String :=
  (inv.find? (fun p => decide (p.2.retail_sku ≠ "" ∧ p.2.retail_sku = sku))).map (·.1)

/-- Inventory resolution for one catalog row (lines 313-344): a direct
vendor-SKU match or a retail-SKU match overwrites `qty`, `upc`,
`retail_sku`, `locations` and rewrites the row's `sku` to the vendor SKU;
otherwise `qty` is forced to 0 and `locations` emptied.  The `cost` and
`weight` overwrites are elided (fields not modelled). -/
def resolveRow (inv : List (String × InvRecord)) (r : Row) : Row :=
  let sku := trimS r.sku
  match lookupA inv sku with
  | some d =>
    { r with qty := d.qty, upc := d.upc, retail_sku := sku, sku := sku,
             locations := serializeLocations d.locations }
  | none =>
    match findRetailMatch inv sku with
    | some v =>
      match lookupA inv v with
      | some d =>
        { r with qty := d.qty, upc := d.upc, retail_sku := sku, sku := v,
                 locations := serializeLocations d.locations }
      | none => { r with qty := 0, locations := "" }
    | none => { r with qty := 0, locations := "" }

/-- First pass of `clean_and_aggregate_magento_csv` (lines 310-352):
resolve every row against inventory, then partition into the simple-row
list and the parent table keyed by the original trimmed catalog SKU. -/
def splitCatalog (inv : List (String × InvRecord)) (cats : List Row) :
    List Row × List (String × Row) :=
  cats.foldl (fun acc r0 =>
    let sku := trimS r0.sku
    let ptype := lowerS (trimS r0.product_type)
    let r := resolveRow inv r0
    if ptype = "simple" then (acc.1 ++ [r], acc.2)
    else (acc.1, setA acc.2 sku r)) ([], [])

/-- One field of the parent-fallback rule (lines 371-377): an empty
trimmed simple value is replaced by the parent's trimmed value when the
latter is non-empty. -/
def inh (s p : String) : String :=
  if trimS s = "" ∧ trimS p ≠ "" then trimS p else s

/-- Attribute inheritance for one simple row (lines 362-377): the parent
is looked up once via the trimmed `parent_sku`, and each of the seven
fields is filled independently; no parent means no change. -/
def inheritFields (parents : List (String × Row)) (r : Row) : Row :=
  match lookupA parents (trimS r.parent_sku) with
  | none => r
  | some p =>
    { r with
      attribute_set_code := inh r.attribute_set_code p.attribute_set_code,
      flavor := inh r.flavor p.flavor,
      volume := inh r.volume p.volume,
      nicotine_level := inh r.nicotine_level p.nicotine_level,
      unit_per_pack := inh r.unit_per_pack p.unit_per_pack,
      puff_counts := inh r.puff_counts p.puff_counts,
      resistance := inh r.resistance p.resistance }

/-- Per-row enrichment (lines 380-409): inheritance, pack-size
extraction, trimming of `flavor` and `resistance` (`volume` and
`nicotine_level` are written back untrimmed), `original_qty`, and
`pack_size`.  The `int(float(...))` cast of `puff_counts` and the
re-parse of `qty` (already a number here) are elided. -/
def enrichRow (parents : List (String × Row)) (r0 : Row) : Row :=
  let r := inheritFields parents r0
  let pack_size := extract_pack_size r.name r.unit_per_pack
  { r with flavor := trimS r.flavor, resistance := trimS r.resistance,
           original_qty := r.qty, pack_size := pack_size }

/-- Where the routing of lines 411-434 sends one enriched simple row. -/
inductive Routed where
  | toGroup (key : String) (r : Row)
  | toStandalone (r : Row)
  | dropped
deriving Repr, DecidableEq

/-- The canonical name computed for one enriched simple row
(lines 414-417): empty when the attribute test fails. -/
def canonicalFor (r : Row) : String :=
  if should_generate_canonical_name r.volume r.nicotine_level r.flavor r.resistance then
    generate_canonical_name (trimS r.parent_sku) (trimS r.attribute_set_code) r.brand
      r.volume r.nicotine_level r.flavor r.resistance
  else ""

/-- Routing of one enriched simple row (lines 411-434): a meaningful
attribute set yields a canonical name and the row joins that group;
otherwise inventory rows become standalone and the rest are dropped. -/
def routeSimple (inv : List (String × InvRecord)) (r : Row) : Routed :=
  let is_inventory_item := (lookupA inv r.sku).isSome
  let cn := canonicalFor r
  if cn ≠ "" then Routed.toGroup cn { r with canonical_name := cn }
  else if is_inventory_item then
    Routed.toStandalone { r with canonical_name := cn, single_product_sku := "" }
  else Routed.dropped

/-- `products_by_key.setdefault(key, []).append(row)` (line 422): dict
insertion order for keys, append order inside a group. -/
def pushGroup (gs : List (String × List Row)) (k : String) (r : Row) :
    List (String × List Row) :=
  match gs with
  | [] => [(k, [r])]
  | (k', rs) :: t => if k' = k then (k', rs ++ [r]) :: t else (k', rs) :: pushGroup t k r

/-- Accumulator of the simple-row loop: `products_by_key`,
`standalone_products` and `processed_inventory_skus`. -/
structure SimplesAcc where
  groups : List (String × List Row)
  standalone : List Row
  processed : List String
deriving Repr, DecidableEq

/-- One iteration of the simple-row loop (lines 362-434). -/
def simpleStep (inv : List (String × InvRecord)) (parents : List (String × Row))
    (acc : SimplesAcc) (r0 : Row) : SimplesAcc :=
  let r := enrichRow parents r0
  match routeSimple inv r with
  | Routed.toGroup k r' =>
    { acc with
      groups := pushGroup acc.groups k r',
      processed :=
        if (lookupA inv r'.sku).isSome then acc.processed ++ [r'.sku] else acc.processed }
  | Routed.toStandalone r' =>
    { acc with standalone := acc.standalone ++ [r'], processed := acc.processed ++ [r'.sku] }
  | Routed.dropped => acc

/-- The whole simple-row loop (lines 354-434). -/
def processSimples (inv : List (String × InvRecord)) (parents : List (String × Row))
    (simples : List Row) : SimplesAcc :=
  simples.foldl (simpleStep inv parents) ⟨[], [], []⟩

/-- Representative selection for a canonical group (lines 439-451):
first a pack-size-1 member that is an inventory key, then any pack-size-1
member, else the empty string. -/
def pickSingleSku (inv : List (String × InvRecord)) (rows : List Row) : String :=
  match rows.find? (fun r => decide (r.pack_size = 1 ∧ (lookupA inv r.sku).isSome)) with
  | some r => r.sku
  | none =>
    match rows.find? (fun r => decide (r.pack_size = 1)) with
    | some r => r.sku
    | none => ""

/-- Per-row step of group processing (lines 454-466), for representative
`sps`: set `single_product_sku` on multi-packs when a representative
exists, then keep inventory members and multi-packs whose representative
is an inventory key. -/
def groupEmit (inv : List (String × InvRecord)) (sps : String) (r : Row) : Option Row :=
  let r' :=
    if r.pack_size > 1 ∧ sps ≠ "" then { r with single_product_sku := sps }
    else { r with single_product_sku := "" }
  if (lookupA inv r.sku).isSome then some r'
  else if r.pack_size > 1 ∧ sps ≠ "" ∧ (lookupA inv sps).isSome then some r'
  else none

/-- Group processing (lines 453-466). -/
def processGroup (inv : List (String × InvRecord)) (rows : List Row) : List Row :=
  rows.filterMap (groupEmit inv (pickSingleSku inv rows))

/-- Synthesized standalone row for an inventory record never touched by a
catalog row (lines 469-491); the `cost`, `price = cost * 1.5` and
`weight` fields are elided, the remaining catalog columns default to
`""`. -/
def orphanRow (sku : String) (d : InvRecord) : Row :=
  { sku := sku,
    name := "Inventory Item " ++ sku,
    qty := d.qty,
    upc := d.upc,
    retail_sku := if d.retail_sku ≠ "" then d.retail_sku else "",
    pack_size := 1,
    canonical_name := "",
    single_product_sku := "",
    original_qty := d.qty,
    locations := serializeLocations d.locations }

/-- The grouped/standalone/orphan lists of one pipeline run, before final
concatenation. -/
def pipelineAcc (duoRows : List DuoRow) (invRaws : List RawInvRow) (cats : List Row) :
    SimplesAcc :=
  let inv := load_inventory_data duoRows invRaws
  let split := splitCatalog inv cats
  processSimples inv split.2 split.1

/-- `clean_and_aggregate_magento_csv` (lines 269-503) as a function from
the three parsed input files to the list of rows written to the output
CSV (grouped products, then standalone products, then orphaned inventory
rows, in the source's iteration orders). -/
def clean_and_aggregate (duoRows : List DuoRow) (invRaws : List RawInvRow)
    (cats : List Row) : List Row :=
  let inv := load_inventory_data duoRows invRaws
  let acc := pipelineAcc duoRows invRaws cats
  let grouped := acc.groups.flatMap (fun p => processGroup inv p.2)
  let orphans := inv.filterMap (fun p =>
    if p.1 ∈ acc.processed then none else some (orphanRow p.1 p.2))
  grouped ++ (acc.standalone ++ orphans)

/-! ### Concrete inputs for counterexamples and witnesses -/

/-- Inventory feed of the spec's quantity-conservation scenario: a
single-pack vendor SKU with qty 10 and a 4-pack vendor SKU with qty 3. -/
def exInvQty : List RawInvRow := [⟨"S1", 10, 0, "", "U1"⟩, ⟨"S4", 3, 0, "", "U4"⟩]

/-- Catalog feed of the quantity-conservation scenario: two simple rows
sharing flavor, parent, brand and category; one single unit, one
4-pack.  They land in one canonical group `"cat_b_p | mint"`. -/
def exCatsQty : List Row :=
  [{ sku := "S1", product_type := "simple", name := "Thing", unit_per_pack := "single",
     flavor := "mint", parent_sku := "P", brand := "b", attribute_set_code := "cat" },
   { sku := "S4", product_type := "simple", name := "Thing 4-Pack",
     flavor := "mint", parent_sku := "P", brand := "b", attribute_set_code := "cat" }]

/-- The 4-pack row as it appears in the output of the scenario above. -/
def exOutFourPack : Row :=
  { sku := "S4", attribute_set_code := "cat", unit_per_pack := "",
    product_type := "simple", name := "Thing 4-Pack", parent_sku := "P",
    brand := "b", flavor := "mint", qty := 3, upc := "U4", retail_sku := "S4",
    pack_size := 4, canonical_name := "cat_b_p | mint",
    single_product_sku := "S1", original_qty := 3 }

/-- One-record inventory feed for the duplicate-coverage scenario. -/
def exInvDup : List RawInvRow := [⟨"A", 5, 0, "", "UA"⟩]

/-- The inventory record loaded from `exInvDup`. -/
def exRecDup : InvRecord := ⟨5, "UA", "A", [], 0⟩

/-- Two catalog rows that both resolve to the single inventory record
`"A"` (same catalog SKU twice). -/
def exCatsDup : List Row :=
  [{ sku := "A", product_type := "simple" }, { sku := "A", product_type := "simple" }]

/-- Three inventory rows with distinct vendor SKUs sharing UPC `"111"`. -/
def exRawsUpc : List RawInvRow :=
  [⟨"A", 0, 0, "", "111"⟩, ⟨"B", 0, 0, "", "111"⟩, ⟨"C", 0, 0, "", "111"⟩]

/-- A feed whose UPC-dedup suffix collides with an existing UPC: `A`
owns `"1111"` outright, while `B` and `C` share `"111"`. -/
def exRawsUpcClash : List RawInvRow :=
  [⟨"A", 0, 0, "", "1111"⟩, ⟨"B", 0, 0, "", "111"⟩, ⟨"C", 0, 0, "", "111"⟩]

/-- Two inventory rows for the same vendor SKU `"V"` (the second SKU
cell trims to `"V"`), writing the same location twice. -/
def exRawsDupSku : List RawInvRow :=
  [⟨"V", 2, 5, "L1", "u"⟩, ⟨" V ", 3, 7, "L1", "x"⟩]

/-- One-record inventory table for the group-processing witness. -/
def exGrpInv : List (String × InvRecord) := [("S", ⟨7, "u", "S", [], 0⟩)]

/-- A one-member canonical group whose member is the inventory single. -/
def exGrpRow : Row := { sku := "S", qty := 7, pack_size := 1 }

/-- Parent table for the inheritance witness. -/
def exParents : List (String × Row) := [("P", { sku := "P", flavor := "mint" })]

/-- A simple row missing `flavor` whose parent has `flavor = "mint"`. -/
def exChild : Row := { sku := "K", parent_sku := "P", flavor := "" }

/-- A simple row with no meaningful attribute and a SKU that is not an
inventory key. -/
def exNoAttr : Row := { sku := "Z", product_type := "simple" }

/-! ### Auxiliary lemmas on the dictionary model -/

theorem lookupA_setA_self {α : Type} (m : List (String × α)) (k : String) (v : α) :
    lookupA (setA m k v) k = some v := by
  induction m with
  | nil => simp [setA, lookupA]
  | cons h t ih =>
    obtain ⟨k', v'⟩ := h
    by_cases hk : k' = k
    · subst hk
      simp [setA, lookupA]
    · simp [setA, lookupA, hk, ih]

theorem lookupA_setA_ne {α : Type} (m : List (String × α)) (k k' : String) (v : α)
    (h : k' ≠ k) : lookupA (setA m k v) k' = lookupA m k' := by
  induction m with
  | nil =>
    have hne : ¬ k = k' := fun he => h he.symm
    simp [setA, lookupA, hne]
  | cons hd t ih =>
    obtain ⟨k0, v0⟩ := hd
    by_cases hk : k0 = k
    · subst hk
      have : ¬ k0 = k' := fun he => h (he.symm)
      simp [setA, lookupA, this]
    · simp only [setA, if_neg hk, lookupA]
      by_cases hk' : k0 = k'
      · simp [hk']
      · simp [hk', ih]

theorem pushGroup_mem_old {gs : List (String × List Row)} {kv : String × List Row}
    {x : Row} (k : String) (r : Row) (hkv : kv ∈ gs) (hx : x ∈ kv.2) :
    ∃ kv', kv' ∈ pushGroup gs k r ∧ x ∈ kv'.2 := by
  induction gs with
  | nil => cases hkv
  | cons hd t ih =>
    obtain ⟨k', rs⟩ := hd
    by_cases hk : k' = k
    · rw [pushGroup, if_pos hk]
      rcases List.mem_cons.1 hkv with hkv | hkv
      · subst hkv
        exact ⟨(k', rs ++ [r]), List.mem_cons_self _ _, List.mem_append_left _ hx⟩
      · exact ⟨kv, List.mem_cons_of_mem _ hkv, hx⟩
    · rw [pushGroup, if_neg hk]
      rcases List.mem_cons.1 hkv with hkv | hkv
      · subst hkv
        exact ⟨(k', rs), List.mem_cons_self _ _, hx⟩
      · obtain ⟨kv', h1, h2⟩ := ih hkv
        exact ⟨kv', List.mem_cons_of_mem _ h1, h2⟩

theorem pushGroup_mem_new (gs : List (String × List Row)) (k : String) (r : Row) :
    ∃ kv', kv' ∈ pushGroup gs k r ∧ r ∈ kv'.2 := by
  induction gs with
  | nil =>
    exact ⟨(k, [r]), List.mem_singleton_self _, List.mem_singleton_self _⟩
  | cons hd t ih =>
    obtain ⟨k', rs⟩ := hd
    by_cases hk : k' = k
    · rw [pushGroup, if_pos hk]
      exact ⟨(k', rs ++ [r]), List.mem_cons_self _ _,
        List.mem_append_right _ (List.mem_singleton_self _)⟩
    · rw [pushGroup, if_neg hk]
      obtain ⟨kv', h1, h2⟩ := ih
      exact ⟨kv', List.mem_cons_of_mem _ h1, h2⟩

/-! ### Auxiliary lemmas on routing and group processing -/

theorem routeSimple_toStandalone {inv : List (String × InvRecord)} {r r' : Row}
    (h : routeSimple inv r = Routed.toStandalone r') :
    r'.single_product_sku = "" ∧ r'.sku = r.sku ∧
      (lookupA inv r.sku).isSome = true := by
  simp only [routeSimple] at h
  split_ifs at h with h1 h2
  injection h with h
  subst h
  exact ⟨rfl, rfl, h2⟩

theorem pickSingleSku_mem (inv : List (String × InvRecord)) (rows : List Row)
    (h : pickSingleSku inv rows ≠ "") :
    ∃ m ∈ rows, m.sku = pickSingleSku inv rows ∧ m.pack_size = 1 := by
  rcases h1 : rows.find? (fun r => decide (r.pack_size = 1 ∧ (lookupA inv r.sku).isSome)) with
    _ | m
  · rcases h2 : rows.find? (fun r => decide (r.pack_size = 1)) with _ | m
    · exfalso
      apply h
      simp only [pickSingleSku, h1, h2]
    · have hm := List.mem_of_find?_eq_some h2
      have hp := List.find?_some h2
      simp only [decide_eq_true_eq] at hp
      refine ⟨m, hm, ?_, hp⟩
      simp only [pickSingleSku, h1, h2]
  · have hm := List.mem_of_find?_eq_some h1
    have hp := List.find?_some h1
    simp only [decide_eq_true_eq] at hp
    refine ⟨m, hm, ?_, hp.1⟩
    simp only [pickSingleSku, h1]

theorem processGroup_mem_of_inv (inv : List (String × InvRecord)) (rows : List Row)
    (r : Row) (hr : r ∈ rows) (hsome : (lookupA inv r.sku).isSome = true) :
    ∃ r', r' ∈ processGroup inv rows ∧ r'.sku = r.sku := by
  refine ⟨if r.pack_size > 1 ∧ pickSingleSku inv rows ≠ ""
      then { r with single_product_sku := pickSingleSku inv rows }
      else { r with single_product_sku := "" },
    List.mem_filterMap.2 ⟨r, hr, ?_⟩, ?_⟩
  · simp only [groupEmit, hsome, if_true]
  · by_cases hC : r.pack_size > 1 ∧ pickSingleSku inv rows ≠ "" <;> simp [hC]

theorem processGroup_mem_inv (inv : List (String × InvRecord)) (rows : List Row)
    (r' : Row) (h : r' ∈ processGroup inv rows) :
    ∃ r ∈ rows,
      (r' = { r with single_product_sku := pickSingleSku inv rows } ∧
        r.pack_size > 1 ∧ pickSingleSku inv rows ≠ "") ∨
      r' = { r with single_product_sku := "" } := by
  obtain ⟨r, hr, hf⟩ := List.mem_filterMap.1 h
  refine ⟨r, hr, ?_⟩
  simp only [groupEmit] at hf
  by_cases hC : r.pack_size > 1 ∧ pickSingleSku inv rows ≠ ""
  · rw [if_pos hC] at hf
    split_ifs at hf with h1 h2 <;>
      first
        | exact Or.inl ⟨hf.symm, hC⟩
        | (injection hf with hf; exact Or.inl ⟨hf.symm, hC⟩)
  · rw [if_neg hC] at hf
    split_ifs at hf with h1 h2 <;>
      first
        | exact Or.inr hf.symm
        | (injection hf with hf; exact Or.inr hf.symm)

/-! ### Invariants of the simple-row loop -/

theorem simplesFold_covered (inv : List (String × InvRecord))
    (parents : List (String × Row)) :
    ∀ (l : List Row) (acc : SimplesAcc),
      (∀ s ∈ acc.processed,
        (∃ kv ∈ acc.groups, ∃ r ∈ kv.2, r.sku = s ∧ (lookupA inv s).isSome = true) ∨
        (∃ r ∈ acc.standalone, r.sku = s)) →
      ∀ s ∈ (l.foldl (simpleStep inv parents) acc).processed,
        (∃ kv ∈ (l.foldl (simpleStep inv parents) acc).groups, ∃ r ∈ kv.2,
          r.sku = s ∧ (lookupA inv s).isSome = true) ∨
        (∃ r ∈ (l.foldl (simpleStep inv parents) acc).standalone, r.sku = s) := by
  intro l
  induction l with
  | nil => intro acc hacc; exact hacc
  | cons r0 t ih =>
    intro acc hacc
    rw [List.foldl_cons]
    refine ih (simpleStep inv parents acc r0) ?_
    intro s hs
    cases hroute : routeSimple inv (enrichRow parents r0) with
    | toGroup k r' =>
      simp only [simpleStep, hroute] at hs ⊢
      by_cases hio : (lookupA inv r'.sku).isSome = true
      · rw [if_pos hio] at hs
        rcases List.mem_append.1 hs with hs | hs
        · rcases hacc s hs with ⟨kv, hkv, x, hx, hsk, hsome⟩ | hst
          · obtain ⟨kv', h1, h2⟩ := pushGroup_mem_old k r' hkv hx
            exact Or.inl ⟨kv', h1, x, h2, hsk, hsome⟩
          · exact Or.inr hst
        · have hs' : s = r'.sku := List.mem_singleton.1 hs
          subst hs'
          obtain ⟨kv', h1, h2⟩ := pushGroup_mem_new acc.groups k r'
          exact Or.inl ⟨kv', h1, r', h2, rfl, hio⟩
      · rw [if_neg hio] at hs
        rcases hacc s hs with ⟨kv, hkv, x, hx, hsk, hsome⟩ | hst
        · obtain ⟨kv', h1, h2⟩ := pushGroup_mem_old k r' hkv hx
          exact Or.inl ⟨kv', h1, x, h2, hsk, hsome⟩
        · exact Or.inr hst
    | toStandalone r' =>
      simp only [simpleStep, hroute] at hs ⊢
      rcases List.mem_append.1 hs with hs | hs
      · rcases hacc s hs with ⟨kv, hkv, x, hx, hsk, hsome⟩ | ⟨x, hx, hsk⟩
        · exact Or.inl ⟨kv, hkv, x, hx, hsk, hsome⟩
        · exact Or.inr ⟨x, List.mem_append_left _ hx, hsk⟩
      · have hs' : s = r'.sku := List.mem_singleton.1 hs
        subst hs'
        exact Or.inr ⟨r', List.mem_append_right _ (List.mem_singleton_self _), rfl⟩
    | dropped =>
      simp only [simpleStep, hroute] at hs ⊢
      exact hacc s hs

theorem processSimples_covered (inv : List (String × InvRecord))
    (parents : List (String × Row)) (simples : List Row) :
    ∀ s ∈ (processSimples inv parents simples).processed,
      (∃ kv ∈ (processSimples inv parents simples).groups, ∃ r ∈ kv.2,
        r.sku = s ∧ (lookupA inv s).isSome = true) ∨
      (∃ r ∈ (processSimples inv parents simples).standalone, r.sku = s) := by
  refine simplesFold_covered inv parents simples ⟨[], [], []⟩ ?_
  intro s hs
  cases hs

theorem simplesFold_standalone (inv : List (String × InvRecord))
    (parents : List (String × Row)) :
    ∀ (l : List Row) (acc : SimplesAcc),
      (∀ s ∈ acc.standalone,
        s.single_product_sku = "" ∧ (lookupA inv s.sku).isSome = true) →
      ∀ s ∈ (l.foldl (simpleStep inv parents) acc).standalone,
        s.single_product_sku = "" ∧ (lookupA inv s.sku).isSome = true := by
  intro l
  induction l with
  | nil => intro acc hacc; exact hacc
  | cons r0 t ih =>
    intro acc hacc
    rw [List.foldl_cons]
    refine ih (simpleStep inv parents acc r0) ?_
    intro s hs
    cases hroute : routeSimple inv (enrichRow parents r0) with
    | toGroup k r' =>
      simp only [simpleStep, hroute] at hs ⊢
      exact hacc s hs
    | toStandalone r' =>
      simp only [simpleStep, hroute] at hs ⊢
      rcases List.mem_append.1 hs with hs | hs
      · exact hacc s hs
      · have hs' : s = r' := List.mem_singleton.1 hs
        subst hs'
        obtain ⟨h1, h2, h3⟩ := routeSimple_toStandalone hroute
        exact ⟨h1, by rw [h2]; exact h3⟩
    | dropped =>
      simp only [simpleStep, hroute] at hs ⊢
      exact hacc s hs

theorem processSimples_standalone (inv : List (String × InvRecord))
    (parents : List (String × Row)) (simples : List Row) :
    ∀ s ∈ (processSimples inv parents simples).standalone,
      s.single_product_sku = "" ∧ (lookupA inv s.sku).isSome = true := by
  refine simplesFold_standalone inv parents simples ⟨[], [], []⟩ ?_
  intro s hs
  cases hs

/-! ### Fold lemmas for the inventory loader -/

theorem foldl_recStep_qty :
    ∀ (l : List InvRow) (rec : InvRecord),
      (l.foldl recStep rec).qty = rec.qty + (l.map (fun r => r.total_qty.toNat)).sum := by
  intro l
  induction l with
  | nil => intro rec; simp
  | cons r t ih =>
    intro rec
    rw [List.foldl_cons, ih]
    simp [recStep]
    omega

theorem foldl_recStep_locations :
    ∀ (l : List InvRow) (rec : InvRecord),
      (l.foldl recStep rec).locations = l.foldl locStep rec.locations := by
  intro l
  induction l with
  | nil => intro rec; rfl
  | cons r t ih =>
    intro rec
    rw [List.foldl_cons, ih, List.foldl_cons]
    rfl

theorem lookupA_foldl_locStep (hl : String) (hne : hl ≠ "") :
    ∀ (l : List InvRow) (L : List (String × Nat)),
      lookupA (l.foldl locStep L) hl =
        match l.reverse.find? (fun r => r.location == hl) with
        | some r => some r.location_qty.toNat
        | none => lookupA L hl := by
  intro l
  induction l with
  | nil => intro L; rfl
  | cons r t ih =>
    intro L
    rw [List.foldl_cons, ih (locStep L r), List.reverse_cons, List.find?_append]
    cases hfind : t.reverse.find? (fun r => r.location == hl) with
    | some m => rfl
    | none =>
      simp only [Option.none_or]
      by_cases hloc : r.location = hl
      · have hb : (r.location == hl) = true := by
          simp [hloc]
        simp only [List.find?_cons, hb]
        simp only [locStep, hloc, if_pos (by simpa [hloc] using hne)]
        exact lookupA_setA_self L hl r.location_qty.toNat
      · have hb : (r.location == hl) = false := by
          simp [hloc]
        simp only [List.find?_cons, hb, List.find?_nil]
        by_cases hempty : r.location = ""
        · simp [locStep, hempty]
        · simp only [locStep, if_pos hempty]
          exact lookupA_setA_ne L r.location hl _ (fun he => hloc he.symm)

theorem length_filter_range_window (n : Nat) :
    ∀ k, ((List.range k).filter (fun j => decide (1 ≤ j ∧ j < n))).length
      = min n k - 1 := by
  intro k
  induction k with
  | zero => simp
  | succ k ih =>
    have hsing : (List.filter (fun j => decide (1 ≤ j ∧ j < n)) [k]).length =
        if 1 ≤ k ∧ k < n then 1 else 0 := by
      by_cases hk : 1 ≤ k ∧ k < n <;> simp [hk]
    rw [List.range_succ, List.filter_append, List.length_append, ih, hsing]
    by_cases hk : 1 ≤ k ∧ k < n
    · have e1 : min n k = k := Nat.min_eq_right (Nat.le_of_lt hk.2)
      have e2 : min n (k + 1) = k + 1 := Nat.min_eq_right hk.2
      rw [if_pos hk, e1, e2]
      omega
    · rw [if_neg hk]
      have h0 : k = 0 ∨ n ≤ k := by omega
      rcases h0 with h0 | h0
      · subst h0
        have h1 : min n 1 ≤ 1 := Nat.min_le_right n 1
        have h2 : min n 0 = 0 := Nat.min_zero n
        omega
      · have e1 : min n k = n := Nat.min_eq_left h0
        have e2 : min n (k + 1) = n := Nat.min_eq_left (le_trans h0 (Nat.le_succ k))
        rw [e1, e2]
        omega

/-- The general counting rule of the duplicate-UPC rewrite (lines
200-218): over first-pass rows indexed `0, …, k−1` that all carry one
UPC `u` and pairwise-distinct vendor SKUs (with `upc_to_sku_map`
recording the index-0 SKU as the kept one and `u` marked duplicate), the
row at position `n ≥ 1` is rewritten to `u` followed by `n`, i.e. the
Nth colliding occurrence (N ≥ 2) gets suffix N − 1. -/
theorem fixUpc_nth (u : String) (sku retail loc : Nat → String) (tq lq : Nat → Int)
    (hinj : ∀ i j, sku i = sku j → i = j) (k n : Nat) (h1 : 1 ≤ n) (h2 : n < k) :
    fixUpc ((List.range k).map (fun j => ⟨sku j, retail j, tq j, lq j, loc j, u, j⟩))
      [(u, sku 0)] [u] ⟨sku n, retail n, tq n, lq n, loc n, u, n⟩
      = u ++ toString n := by
  have hlook : lookupA [(u, sku 0)] u = some (sku 0) := by simp [lookupA]
  have hne0 : ¬ (lookupA [(u, sku 0)]
      (⟨sku n, retail n, tq n, lq n, loc n, u, n⟩ : InvRow).upc =
        some (⟨sku n, retail n, tq n, lq n, loc n, u, n⟩ : InvRow).vendor_sku) := by
    intro he
    rw [hlook] at he
    injection he with he
    have := hinj 0 n he
    omega
  rw [fixUpc, if_pos (List.mem_singleton_self u), if_neg hne0]
  have hcount : (((List.range k).map
      (fun j => (⟨sku j, retail j, tq j, lq j, loc j, u, j⟩ : InvRow))).filter
        (fun o => decide (o.upc = (⟨sku n, retail n, tq n, lq n, loc n, u, n⟩ : InvRow).upc ∧
          ¬ lookupA [(u, sku 0)] (⟨sku n, retail n, tq n, lq n, loc n, u, n⟩ : InvRow).upc
            = some o.vendor_sku ∧
          o.vendor_sku ≠ (⟨sku n, retail n, tq n, lq n, loc n, u, n⟩ : InvRow).vendor_sku ∧
          o.row_index < (⟨sku n, retail n, tq n, lq n, loc n, u, n⟩ : InvRow).row_index))).length
      = n - 1 := by
    rw [List.filter_map, List.length_map]
    have hcongr : ∀ j ∈ List.range k,
        ((fun o : InvRow => decide (o.upc = u ∧
            ¬ lookupA [(u, sku 0)] u = some o.vendor_sku ∧
            o.vendor_sku ≠ sku n ∧ o.row_index < n)) ∘
          (fun j => (⟨sku j, retail j, tq j, lq j, loc j, u, j⟩ : InvRow))) j
          = (fun j => decide (1 ≤ j ∧ j < n)) j := by
      intro j _
      simp only [Function.comp, hlook, decide_eq_decide]
      constructor
      · rintro ⟨-, hk0, -, hjn⟩
        refine ⟨?_, hjn⟩
        rcases Nat.eq_zero_or_pos j with hj0 | hj0
        · exact absurd (by rw [hj0]) hk0
        · exact hj0
      · rintro ⟨hj1, hjn⟩
        refine ⟨trivial, ?_, ?_, hjn⟩
        · intro he
          injection he with he
          have := hinj 0 j he
          omega
        · intro he
          have := hinj j n he
          omega
    rw [List.filter_congr hcongr, length_filter_range_window]
    have : min n k = n := Nat.min_eq_left (Nat.le_of_lt h2)
    rw [this]
  rw [hcount]
  have : 1 + (n - 1) = n := by omega
  rw [this]

/-! ### Per-key characterization of the second-pass fold -/

theorem lookupA_append_left {α : Type} :
    ∀ (m l : List (String × α)) (v : String) (x : α),
      lookupA m v = some x → lookupA (m ++ l) v = some x := by
  intro m l v x h
  induction m with
  | nil => simp [lookupA] at h
  | cons hd t ih =>
    obtain ⟨k0, v0⟩ := hd
    by_cases hk : k0 = v
    · simp only [lookupA, if_pos hk] at h ⊢
      exact h
    · simp only [lookupA, if_neg hk] at h ⊢
      exact ih h

theorem lookupA_append_right {α : Type} :
    ∀ (m l : List (String × α)) (v : String),
      lookupA m v = none → lookupA (m ++ l) v = lookupA l v := by
  intro m l v h
  induction m with
  | nil => rfl
  | cons hd t ih =>
    obtain ⟨k0, v0⟩ := hd
    by_cases hk : k0 = v
    · simp [lookupA, if_pos hk] at h
    · simp only [lookupA, if_neg hk] at h ⊢
      exact ih h

theorem lookupA_eq_none_iff {α : Type} :
    ∀ (m : List (String × α)) (v : String),
      lookupA m v = none ↔ v ∉ m.map Prod.fst := by
  intro m v
  induction m with
  | nil => simp [lookupA]
  | cons hd t ih =>
    obtain ⟨k0, v0⟩ := hd
    by_cases hk : k0 = v
    · subst hk
      simp [lookupA]
    · simp only [lookupA, if_neg hk, List.map_cons, List.mem_cons, ih]
      constructor
      · intro h hmem
        rcases hmem with he | hm
        · exact hk he.symm
        · exact h hm
      · intro h hm
        exact h (Or.inr hm)

theorem map_fst_setA_of_mem {α : Type} :
    ∀ (m : List (String × α)) (k : String) (x : α), (lookupA m k).isSome = true →
      (setA m k x).map Prod.fst = m.map Prod.fst := by
  intro m
  induction m with
  | nil =>
    intro k x h
    simp [lookupA] at h
  | cons hd t ih =>
    intro k x h
    obtain ⟨k0, v0⟩ := hd
    by_cases hk : k0 = k
    · simp [setA, hk]
    · simp only [lookupA, if_neg hk] at h
      simp [setA, hk, ih k x h]

theorem foldl_mergeRow_lookup (A : List InvRow) (U : List (String × String))
    (D : List String) (v : String) :
    ∀ (rows : List InvRow) (m : List (String × InvRecord)),
      lookupA (rows.foldl (mergeRow A U D) m) v =
        match lookupA m v with
        | some rec => some ((rows.filter (fun r => r.vendor_sku == v)).foldl recStep rec)
        | none =>
          match rows.filter (fun r => r.vendor_sku == v) with
          | [] => none
          | r :: t => some (t.foldl recStep (initRec A U D r)) := by
  intro rows
  induction rows with
  | nil =>
    intro m
    cases hm : lookupA m v <;> simp [hm]
  | cons r rows' ih =>
    intro m
    rw [List.foldl_cons]
    by_cases hv' : r.vendor_sku = v
    · have hfil : (r :: rows').filter (fun x => x.vendor_sku == v)
          = r :: rows'.filter (fun x => x.vendor_sku == v) := by
        simp [List.filter_cons, hv']
      rw [hfil]
      cases hm : lookupA m v with
      | some rec =>
        have hmr : lookupA m r.vendor_sku = some rec := by rw [hv']; exact hm
        have hmerge : mergeRow A U D m r = setA m r.vendor_sku (recStep rec r) := by
          rw [mergeRow, hmr]
        have hm' : lookupA (setA m r.vendor_sku (recStep rec r)) v
            = some (recStep rec r) := by
          rw [hv']
          exact lookupA_setA_self m v (recStep rec r)
        rw [hmerge, ih, hm']
        rfl
      | none =>
        have hmr : lookupA m r.vendor_sku = none := by rw [hv']; exact hm
        have hmerge : mergeRow A U D m r = m ++ [(r.vendor_sku, initRec A U D r)] := by
          rw [mergeRow, hmr]
        have hm' : lookupA (m ++ [(r.vendor_sku, initRec A U D r)]) v
            = some (initRec A U D r) := by
          rw [lookupA_append_right _ _ _ hm, hv']
          simp [lookupA]
        rw [hmerge, ih, hm']
    · have hfil : (r :: rows').filter (fun x => x.vendor_sku == v)
          = rows'.filter (fun x => x.vendor_sku == v) := by
        simp [List.filter_cons, hv']
      rw [hfil]
      have hpres : lookupA (mergeRow A U D m r) v = lookupA m v := by
        rw [mergeRow]
        cases hmr : lookupA m r.vendor_sku with
        | some prev =>
          exact lookupA_setA_ne m r.vendor_sku v _ (fun he => hv' he.symm)
        | none =>
          cases hm2 : lookupA m v with
          | some x => exact lookupA_append_left _ _ _ _ hm2
          | none =>
            rw [lookupA_append_right _ _ _ hm2]
            have hne : ¬ r.vendor_sku = v := hv'
            simp [lookupA, hne]
      rw [ih, hpres]

theorem foldl_mergeRow_keys (A : List InvRow) (U : List (String × String))
    (D : List String) :
    ∀ (rows : List InvRow) (m : List (String × InvRecord)),
      (m.map Prod.fst).Nodup →
      ((rows.foldl (mergeRow A U D) m).map Prod.fst).Nodup := by
  intro rows
  induction rows with
  | nil => intro m h; exact h
  | cons r t ih =>
    intro m h
    rw [List.foldl_cons]
    refine ih _ ?_
    rw [mergeRow]
    cases hmr : lookupA m r.vendor_sku with
    | some prev =>
      rw [map_fst_setA_of_mem m _ _ (by rw [hmr]; rfl)]
      exact h
    | none =>
      rw [List.map_append]
      rw [List.nodup_append]
      refine ⟨h, List.nodup_singleton _, ?_⟩
      intro a ha hb
      simp at hb
      subst hb
      exact (lookupA_eq_none_iff m r.vendor_sku).1 hmr ha

/-! ### Filtered transports between raw rows and first-pass rows -/

theorem mkInvRow_vendor (duo : List (String × String)) (i : Nat) (raw : RawInvRow) :
    (mkInvRow duo i raw).vendor_sku = trimS raw.sku := rfl

theorem mkInvRow_total_qty (duo : List (String × String)) (i : Nat) (raw : RawInvRow) :
    (mkInvRow duo i raw).total_qty = raw.quantity := rfl

theorem mkInvRow_location (duo : List (String × String)) (i : Nat) (raw : RawInvRow) :
    (mkInvRow duo i raw).location = trimS raw.location_1 := rfl

theorem mkInvRow_location_qty (duo : List (String × String)) (i : Nat) (raw : RawInvRow) :
    (mkInvRow duo i raw).location_qty = raw.qty_1 := rfl

theorem pass1RowsFrom_cons_skip (duo : List (String × String)) (i : Nat)
    (raw : RawInvRow) (t : List RawInvRow) (h : trimS raw.sku = "") :
    pass1RowsFrom duo i (raw :: t) = pass1RowsFrom duo (i + 1) t := by
  rw [pass1RowsFrom, if_pos h]

theorem pass1RowsFrom_cons_keep (duo : List (String × String)) (i : Nat)
    (raw : RawInvRow) (t : List RawInvRow) (h : ¬ trimS raw.sku = "") :
    pass1RowsFrom duo i (raw :: t) = mkInvRow duo i raw :: pass1RowsFrom duo (i + 1) t := by
  rw [pass1RowsFrom, if_neg h]

theorem pass1RowsFrom_filter_map_qty (duo : List (String × String)) (v : String)
    (hv : v ≠ "") :
    ∀ (raws : List RawInvRow) (i : Nat),
      ((pass1RowsFrom duo i raws).filter (fun r => r.vendor_sku == v)).map
        (fun r => r.total_qty.toNat)
      = (raws.filter (fun raw => trimS raw.sku == v)).map
        (fun raw => raw.quantity.toNat) := by
  intro raws
  induction raws with
  | nil => intro i; rfl
  | cons raw t ih =>
    intro i
    by_cases hsk : trimS raw.sku = ""
    · have hpred : (trimS raw.sku == v) = false := by
        rw [hsk]
        simp
        exact fun he => hv he.symm
      rw [pass1RowsFrom_cons_skip duo i raw t hsk, List.filter_cons,
        if_neg (by simp [hpred])]
      exact ih (i + 1)
    · rw [pass1RowsFrom_cons_keep duo i raw t hsk, List.filter_cons, List.filter_cons]
      cases hpred : (trimS raw.sku == v) with
      | true =>
        rw [if_pos (show ((mkInvRow duo i raw).vendor_sku == v) = true from hpred),
          if_pos (by simp [hpred]), List.map_cons, List.map_cons, ih (i + 1),
          mkInvRow_total_qty]
      | false =>
        rw [if_neg (show ¬ ((mkInvRow duo i raw).vendor_sku == v) = true by
            rw [mkInvRow_vendor, hpred]; exact Bool.false_ne_true),
          if_neg (by simp [hpred])]
        exact ih (i + 1)

theorem pass1RowsFrom_filter_find_loc (duo : List (String × String)) (v hl : String)
    (hv : v ≠ "") :
    ∀ (raws : List RawInvRow) (i : Nat),
      ((((pass1RowsFrom duo i raws).filter (fun r => r.vendor_sku == v)).reverse.find?
        (fun r => r.location == hl)).map (fun r => r.location_qty.toNat))
      = (((raws.filter (fun raw => trimS raw.sku == v)).reverse.find?
        (fun raw => trimS raw.location_1 == hl)).map (fun raw => raw.qty_1.toNat)) := by
  intro raws
  induction raws with
  | nil => intro i; rfl
  | cons raw t ih =>
    intro i
    by_cases hsk : trimS raw.sku = ""
    · have hpred : (trimS raw.sku == v) = false := by
        rw [hsk]
        simp
        exact fun he => hv he.symm
      rw [pass1RowsFrom_cons_skip duo i raw t hsk, List.filter_cons,
        if_neg (by simp [hpred])]
      exact ih (i + 1)
    · rw [pass1RowsFrom_cons_keep duo i raw t hsk, List.filter_cons, List.filter_cons]
      cases hpred : (trimS raw.sku == v) with
      | false =>
        rw [if_neg (show ¬ ((mkInvRow duo i raw).vendor_sku == v) = true by
            rw [mkInvRow_vendor, hpred]; exact Bool.false_ne_true),
          if_neg (by simp [hpred])]
        exact ih (i + 1)
      | true =>
        rw [if_pos (show ((mkInvRow duo i raw).vendor_sku == v) = true from hpred),
          if_pos (by simp [hpred]), List.reverse_cons, List.reverse_cons, List.find?_append,
          List.find?_append]
        have iht := ih (i + 1)
        cases h1 : ((pass1RowsFrom duo (i + 1) t).filter
            (fun r => r.vendor_sku == v)).reverse.find? (fun r => r.location == hl) with
        | some m =>
          rw [h1] at iht
          cases h2 : (t.filter (fun raw => trimS raw.sku == v)).reverse.find?
              (fun raw => trimS raw.location_1 == hl) with
          | some m2 =>
            rw [h2] at iht
            simpa using iht
          | none =>
            rw [h2] at iht
            simp at iht
        | none =>
          rw [h1] at iht
          cases h2 : (t.filter (fun raw => trimS raw.sku == v)).reverse.find?
              (fun raw => trimS raw.location_1 == hl) with
          | some m2 =>
            rw [h2] at iht
            simp at iht
          | none =>
            simp only [Option.none_or]
            by_cases hloc : trimS raw.location_1 = hl
            · have hb1 : ((mkInvRow duo i raw).location == hl) = true := by
                rw [mkInvRow_location]
                simp [hloc]
              have hb2 : (trimS raw.location_1 == hl) = true := by simp [hloc]
              simp [List.find?_cons, hb1, hb2, mkInvRow_location_qty]
            · have hb1 : ((mkInvRow duo i raw).location == hl) = false := by
                rw [mkInvRow_location]
                simp [hloc]
              have hb2 : (trimS raw.location_1 == hl) = false := by simp [hloc]
              simp [List.find?_cons, hb1, hb2]

/-! ### Claim theorems -/

/-- C6: `extract_pack_size` satisfies the four spec examples:
`("Widget 5-Pack", "") = 5`, `("Widget", "single") = 1`,
`("Widget", "3") = 3`, `("Widget", "") = 1`. -/
theorem C6_extract_pack_size_examples :
    extract_pack_size "Widget 5-Pack" "" = 5 ∧
    extract_pack_size "Widget" "single" = 1 ∧
    extract_pack_size "Widget" "3" = 3 ∧
    extract_pack_size "Widget" "" = 1 := by
  refine ⟨by decide, by decide, by decide, by decide⟩

/-- C3 counterexample: for three inventory rows with vendor SKUs
`A`, `B`, `C` all sharing UPC `"111"` in that order, the claim predicts
`B ↦ "1112"` and `C ↦ "1113"`; the code produces `"1111"` and `"1112"`
(the suffix counter starts at 1, not 2). -/
theorem C3_counterexample :
    ¬ ((lookupA (load_inventory_data [] exRawsUpc) "B").map InvRecord.upc = some "1112" ∧
       (lookupA (load_inventory_data [] exRawsUpc) "C").map InvRecord.upc = some "1113") := by
  decide

/-- C3 amended: `A` keeps UPC `"111"`, `B`'s record gets `"1111"` and
`C`'s record gets `"1112"`; in general, over first-pass rows indexed
`0, …, k−1` sharing one UPC with pairwise-distinct vendor SKUs, the Nth
colliding occurrence (N ≥ 2, index `n = N − 1`) is rewritten to the UPC
string followed by N − 1, not N: the suffix counter starts at 1. -/
theorem C3_amended_upc_suffixes :
    ((lookupA (load_inventory_data [] exRawsUpc) "A").map InvRecord.upc = some "111" ∧
     (lookupA (load_inventory_data [] exRawsUpc) "B").map InvRecord.upc = some "1111" ∧
     (lookupA (load_inventory_data [] exRawsUpc) "C").map InvRecord.upc = some "1112") ∧
    ∀ (u : String) (sku retail loc : Nat → String) (tq lq : Nat → Int),
      (∀ i j, sku i = sku j → i = j) → ∀ k n, 1 ≤ n → n < k →
        fixUpc ((List.range k).map (fun j => ⟨sku j, retail j, tq j, lq j, loc j, u, j⟩))
          [(u, sku 0)] [u] ⟨sku n, retail n, tq n, lq n, loc n, u, n⟩
          = u ++ toString n := by
  constructor
  · refine ⟨by decide, by decide, by decide⟩
  · intro u sku retail loc tq lq hinj k n h1 h2
    exact fixUpc_nth u sku retail loc tq lq hinj k n h1 h2

/-- Witness for C3's amended statement: the general suffix rule applied
at `k = 3`, `n = 2` over three distinct SKUs reproduces the `"1112"`
suffix of the third colliding row. -/
theorem C3_witness :
    fixUpc ((List.range 3).map (fun j =>
        ⟨String.mk (List.replicate (j + 1) 's'), "", 0, 0, "", "111", j⟩))
      [("111", String.mk (List.replicate (0 + 1) 's'))] ["111"]
      ⟨String.mk (List.replicate (2 + 1) 's'), "", 0, 0, "", "111", 2⟩
      = "111" ++ toString 2 :=
  C3_amended_upc_suffixes.2 "111" (fun j => String.mk (List.replicate (j + 1) 's'))
    (fun _ => "") (fun _ => "") (fun _ => 0) (fun _ => 0)
    (by
      intro i j he
      injection he with he
      have hlen := congrArg List.length he
      simp only [List.length_replicate] at hlen
      omega) 3 2 (by omega) (by omega)

/-- C4: the claim (and the code's own stated intent, "append the conflict
count to make the UPC unique") fails: with rows `A ↦ "1111"`,
`B ↦ "111"`, `C ↦ "111"`, the rewrite gives `C` the UPC `"1111"`, equal
to `A`'s stored non-empty UPC, while no row is dropped (all three
records exist). -/
theorem C4_upc_collision :
    (load_inventory_data [] exRawsUpcClash).length = 3 ∧
    (lookupA (load_inventory_data [] exRawsUpcClash) "A").map InvRecord.upc = some "1111" ∧
    (lookupA (load_inventory_data [] exRawsUpcClash) "C").map InvRecord.upc = some "1111" ∧
    ("A" : String) ≠ "C" ∧ ("1111" : String) ≠ "" := by
  refine ⟨by decide, by decide, by decide, by decide, by decide⟩

/-- C8: the pipeline is a deterministic function of its three parsed
inputs.  In this embedding every dictionary iteration the source
performs (`inventory_sku_map.items()` scans, `products_by_key` order,
the orphan loop) is insertion-ordered exactly as Python's dicts are, and
the only sets (`duplicate_upcs`, `processed_inventory_skus`) are used
solely for membership, so two runs on equal inputs give equal output
row lists. -/
theorem C8_deterministic (d1 d2 : List DuoRow) (i1 i2 : List RawInvRow)
    (k1 k2 : List Row) (hd : d1 = d2) (hi : i1 = i2) (hk : k1 = k2) :
    clean_and_aggregate d1 i1 k1 = clean_and_aggregate d2 i2 k2 := by
  subst hd
  subst hi
  subst hk
  rfl

/-- Witness for C8 at a concrete input. -/
theorem C8_witness :
    clean_and_aggregate [] exInvQty exCatsQty = clean_and_aggregate [] exInvQty exCatsQty :=
  C8_deterministic [] [] exInvQty exInvQty exCatsQty exCatsQty rfl rfl rfl

/-- C7: for each of the seven inherited fields, a simple row keeps its
own value whenever that value is non-empty after trimming (even if it
differs from the parent's); an empty trimmed value is replaced by the
parent's trimmed value exactly when the latter is non-empty; with no
parent the row is unchanged.  The rule is applied once, against the
parent row as stored, never recursively. -/
theorem C7_inheritance (parents : List (String × Row)) (r : Row) :
    (lookupA parents (trimS r.parent_sku) = none → inheritFields parents r = r) ∧
    ∀ p, lookupA parents (trimS r.parent_sku) = some p →
      (inheritFields parents r).attribute_set_code = inh r.attribute_set_code p.attribute_set_code ∧
      (inheritFields parents r).flavor = inh r.flavor p.flavor ∧
      (inheritFields parents r).volume = inh r.volume p.volume ∧
      (inheritFields parents r).nicotine_level = inh r.nicotine_level p.nicotine_level ∧
      (inheritFields parents r).unit_per_pack = inh r.unit_per_pack p.unit_per_pack ∧
      (inheritFields parents r).puff_counts = inh r.puff_counts p.puff_counts ∧
      (inheritFields parents r).resistance = inh r.resistance p.resistance ∧
      ∀ s q : String, inh s q = if trimS s = "" ∧ trimS q ≠ "" then trimS q else s := by
  constructor
  · intro h
    simp [inheritFields, h]
  · intro p hp
    simp [inheritFields, hp, inh]

/-- Witness for C7: the spec's `flavor = "mint"` example. -/
theorem C7_witness : (inheritFields exParents exChild).flavor = "mint" := by
  have h := ((C7_inheritance exParents exChild).2
    ({ sku := "P", flavor := "mint" } : Row) (by decide)).2.1
  rw [h]
  decide

/-- C9: an enriched simple row with no meaningful attribute (so no
canonical name) whose resolved SKU is not an inventory key is routed
nowhere — neither grouped nor standalone — and the standalone path only
ever retains rows whose SKU is an inventory key. -/
theorem C9_no_name_no_inventory_dropped (inv : List (String × InvRecord))
    (parents : List (String × Row)) (simples : List Row) (r : Row)
    (hsg : should_generate_canonical_name r.volume r.nicotine_level r.flavor r.resistance
      = false)
    (hinv : lookupA inv r.sku = none) :
    routeSimple inv r = Routed.dropped ∧
    ∀ s ∈ (processSimples inv parents simples).standalone,
      (lookupA inv s.sku).isSome = true := by
  constructor
  · simp [routeSimple, canonicalFor, hsg, hinv]
  · intro s hs
    exact (processSimples_standalone inv parents simples s hs).2

/-- Witness for C9 at a concrete row. -/
theorem C9_witness : routeSimple [] exNoAttr = Routed.dropped :=
  (C9_no_name_no_inventory_dropped [] [] [] exNoAttr (by decide) (by decide)).1

/-- C1 counterexample: on the spec's own example (single-pack qty 10 and
4-pack qty 3 in one canonical group) the output does not assign 22 to
the representative and 0 to the other member: the single keeps qty 10
and the 4-pack keeps qty 3. -/
theorem C1_counterexample :
    ¬ (∀ r ∈ clean_and_aggregate [] exInvQty exCatsQty,
        (r.sku = "S1" → r.qty = 10 * 1 + 3 * 4) ∧ (r.sku ≠ "S1" → r.qty = 0)) := by
  decide

/-- C1 amended: group processing never moves quantity: every row it
emits keeps the `qty` and `original_qty` of a member of the group, and
only `single_product_sku` is assigned. -/
theorem C1_amended_qty_preserved (inv : List (String × InvRecord)) (rows : List Row) :
    ∀ r' ∈ processGroup inv rows, ∃ r ∈ rows,
      r'.qty = r.qty ∧ r'.original_qty = r.original_qty ∧ r'.sku = r.sku := by
  intro r' h
  obtain ⟨r, hr, hcase⟩ := processGroup_mem_inv inv rows r' h
  rcases hcase with ⟨heq, _, _⟩ | heq <;>
    exact ⟨r, hr, by rw [heq], by rw [heq], by rw [heq]⟩

/-- Witness for C1's amended statement at a one-member group. -/
theorem C1_witness :
    ∃ r ∈ [exGrpRow], exGrpRow.qty = r.qty ∧ exGrpRow.original_qty = r.original_qty ∧
      exGrpRow.sku = r.sku :=
  C1_amended_qty_preserved exGrpInv [exGrpRow] exGrpRow (by decide)

/-- C2 counterexample: with one inventory record `A` and two catalog
rows that both resolve to it, `A` appears twice in the final output, so
"exactly once" fails. -/
theorem C2_counterexample :
    ((clean_and_aggregate [] exInvDup exCatsDup).filter (fun r => r.sku == "A")).length = 2 ∧
    ¬ ((clean_and_aggregate [] exInvDup exCatsDup).filter
        (fun r => r.sku == "A")).length = 1 := by
  refine ⟨by decide, by decide⟩

/-- C2 amended: every inventory record's vendor SKU appears at least
once among the output rows — via a grouped or standalone catalog row
that resolved to it, or via a synthesized orphan row — though it can
appear more than once when several catalog rows resolve to the same
record. -/
theorem C2_amended_at_least_once (duoRows : List DuoRow) (invRaws : List RawInvRow)
    (cats : List Row) :
    ∀ p ∈ load_inventory_data duoRows invRaws,
      ∃ r ∈ clean_and_aggregate duoRows invRaws cats, r.sku = p.1 := by
  intro p hp
  have hcaa : clean_and_aggregate duoRows invRaws cats =
      (pipelineAcc duoRows invRaws cats).groups.flatMap
        (fun q => processGroup (load_inventory_data duoRows invRaws) q.2) ++
      ((pipelineAcc duoRows invRaws cats).standalone ++
        (load_inventory_data duoRows invRaws).filterMap (fun q =>
          if q.1 ∈ (pipelineAcc duoRows invRaws cats).processed then none
          else some (orphanRow q.1 q.2))) := rfl
  have hacc : pipelineAcc duoRows invRaws cats =
      processSimples (load_inventory_data duoRows invRaws)
        (splitCatalog (load_inventory_data duoRows invRaws) cats).2
        (splitCatalog (load_inventory_data duoRows invRaws) cats).1 := rfl
  by_cases hproc : p.1 ∈ (pipelineAcc duoRows invRaws cats).processed
  · have hcov := processSimples_covered (load_inventory_data duoRows invRaws)
      (splitCatalog (load_inventory_data duoRows invRaws) cats).2
      (splitCatalog (load_inventory_data duoRows invRaws) cats).1 p.1 (hacc ▸ hproc)
    rcases hcov with ⟨kv, hkv, x, hx, hsk, hsome⟩ | ⟨x, hx, hsk⟩
    · obtain ⟨r', hr', hsk'⟩ := processGroup_mem_of_inv
        (load_inventory_data duoRows invRaws) kv.2 x hx (by rw [hsk]; exact hsome)
      refine ⟨r', ?_, by rw [hsk', hsk]⟩
      rw [hcaa]
      exact List.mem_append_left _ (List.mem_flatMap.2 ⟨kv, hacc ▸ hkv, hr'⟩)
    · refine ⟨x, ?_, hsk⟩
      rw [hcaa]
      exact List.mem_append_right _ (List.mem_append_left _ (hacc ▸ hx))
  · refine ⟨orphanRow p.1 p.2, ?_, rfl⟩
    rw [hcaa]
    refine List.mem_append_right _ (List.mem_append_right _ (List.mem_filterMap.2
      ⟨p, hp, ?_⟩))
    rw [if_neg hproc]

/-- Witness for C2's amended statement: the record `A` of the
duplicate-coverage input appears in the output. -/
theorem C2_witness :
    ∃ r ∈ clean_and_aggregate [] exInvDup exCatsDup, r.sku = ("A", exRecDup).1 :=
  C2_amended_at_least_once [] exInvDup exCatsDup ("A", exRecDup) (by decide)

/-- C10: in every output row, `single_product_sku` is empty unless the
row is a multi-pack (`pack_size > 1`), and a non-empty value is always
the SKU of a member of the row's own canonical group whose `pack_size`
is 1. -/
theorem C10_single_product_sku (duoRows : List DuoRow) (invRaws : List RawInvRow)
    (cats : List Row) :
    ∀ r ∈ clean_and_aggregate duoRows invRaws cats, r.single_product_sku ≠ "" →
      1 < r.pack_size ∧
      ∃ kv ∈ (pipelineAcc duoRows invRaws cats).groups,
        r ∈ processGroup (load_inventory_data duoRows invRaws) kv.2 ∧
        ∃ m ∈ kv.2, m.sku = r.single_product_sku ∧ m.pack_size = 1 := by
  intro r hr hne
  have hcaa : clean_and_aggregate duoRows invRaws cats =
      (pipelineAcc duoRows invRaws cats).groups.flatMap
        (fun q => processGroup (load_inventory_data duoRows invRaws) q.2) ++
      ((pipelineAcc duoRows invRaws cats).standalone ++
        (load_inventory_data duoRows invRaws).filterMap (fun q =>
          if q.1 ∈ (pipelineAcc duoRows invRaws cats).processed then none
          else some (orphanRow q.1 q.2))) := rfl
  have hacc : pipelineAcc duoRows invRaws cats =
      processSimples (load_inventory_data duoRows invRaws)
        (splitCatalog (load_inventory_data duoRows invRaws) cats).2
        (splitCatalog (load_inventory_data duoRows invRaws) cats).1 := rfl
  rw [hcaa] at hr
  rcases List.mem_append.1 hr with hg | hrest
  · obtain ⟨kv, hkv, hmem⟩ := List.mem_flatMap.1 hg
    obtain ⟨r0, hr0, hcase⟩ := processGroup_mem_inv
      (load_inventory_data duoRows invRaws) kv.2 r hmem
    rcases hcase with ⟨heq, hgt, hsps⟩ | heq
    · subst heq
      obtain ⟨m, hm, hms, hmp⟩ := pickSingleSku_mem
        (load_inventory_data duoRows invRaws) kv.2 hsps
      exact ⟨hgt, kv, hkv, hmem, m, hm, hms, hmp⟩
    · rw [heq] at hne
      simp at hne
  · exfalso
    rcases List.mem_append.1 hrest with hst | hor
    · have h0 := (processSimples_standalone (load_inventory_data duoRows invRaws)
        (splitCatalog (load_inventory_data duoRows invRaws) cats).2
        (splitCatalog (load_inventory_data duoRows invRaws) cats).1 r (hacc ▸ hst)).1
      exact hne h0
    · obtain ⟨q, hq, hqe⟩ := List.mem_filterMap.1 hor
      by_cases hq1 : q.1 ∈ (pipelineAcc duoRows invRaws cats).processed
      · rw [if_pos hq1] at hqe
        cases hqe
      · rw [if_neg hq1] at hqe
        injection hqe with hqe
        rw [← hqe] at hne
        exact hne rfl

/-- Witness for C10: the 4-pack output row of the concrete group
scenario carries `single_product_sku = "S1"`. -/
theorem C10_witness :
    1 < exOutFourPack.pack_size ∧
    ∃ kv ∈ (pipelineAcc [] exInvQty exCatsQty).groups,
      exOutFourPack ∈ processGroup (load_inventory_data [] exInvQty) kv.2 ∧
      ∃ m ∈ kv.2, m.sku = exOutFourPack.single_product_sku ∧ m.pack_size = 1 :=
  C10_single_product_sku [] exInvQty exCatsQty exOutFourPack (by decide) (by decide)

/-- C5: for every inventory feed and every vendor SKU `v` that occurs
in it (as a trimmed, non-empty `SKU` cell): the loaded map's keys are
pairwise distinct, so only the first row with `v` creates an
`InvRecord` and subsequent duplicate rows never create a second one;
the record's `qty` is the running sum of the clamped `Quantity` cells
of all rows whose SKU trims to `v`; and each non-empty location maps to
the clamped `Qty_1` of the most recently seen such row for that
location. -/
theorem C5_duplicate_sku_merge (duoRows : List DuoRow) (raws : List RawInvRow)
    (v : String) (hv : v ≠ "")
    (hne : raws.filter (fun raw => trimS raw.sku == v) ≠ []) :
    ((load_inventory_data duoRows raws).map Prod.fst).Nodup ∧
    ∃ rec, lookupA (load_inventory_data duoRows raws) v = some rec ∧
      rec.qty = ((raws.filter (fun raw => trimS raw.sku == v)).map
        (fun raw => raw.quantity.toNat)).sum ∧
      ∀ hl, hl ≠ "" →
        lookupA rec.locations hl =
          ((raws.filter (fun raw => trimS raw.sku == v)).reverse.find?
            (fun raw => trimS raw.location_1 == hl)).map
            (fun raw => raw.qty_1.toNat) := by
  have hpp : pass1RowsFrom (load_duoplane_mapping duoRows) 0 raws =
      pass1Rows (load_duoplane_mapping duoRows) raws := rfl
  have hq := pass1RowsFrom_filter_map_qty (load_duoplane_mapping duoRows) v hv raws 0
  have hfd := pass1RowsFrom_filter_find_loc (load_duoplane_mapping duoRows) v v hv raws 0
  rw [hpp] at hq
  constructor
  · exact foldl_mergeRow_keys (pass1Rows (load_duoplane_mapping duoRows) raws)
      (trackUpcs raws).1 (trackUpcs raws).2
      (pass1Rows (load_duoplane_mapping duoRows) raws) [] (by simp)
  · have hlk := foldl_mergeRow_lookup (pass1Rows (load_duoplane_mapping duoRows) raws)
      (trackUpcs raws).1 (trackUpcs raws).2 v
      (pass1Rows (load_duoplane_mapping duoRows) raws) []
    have hne' : (pass1Rows (load_duoplane_mapping duoRows) raws).filter
        (fun r => r.vendor_sku == v) ≠ [] := by
      intro h0
      apply hne
      rw [h0] at hq
      exact (List.map_eq_nil_iff).1 hq.symm
    cases hfp : (pass1Rows (load_duoplane_mapping duoRows) raws).filter
        (fun r => r.vendor_sku == v) with
    | nil => exact absurd hfp hne'
    | cons r t =>
      rw [hfp] at hlk
      refine ⟨t.foldl recStep (initRec (pass1Rows (load_duoplane_mapping duoRows) raws)
        (trackUpcs raws).1 (trackUpcs raws).2 r), hlk, ?_, ?_⟩
      · rw [foldl_recStep_qty]
        have hsum : (r :: t).map (fun x => x.total_qty.toNat)
            = ((pass1Rows (load_duoplane_mapping duoRows) raws).filter
              (fun x => x.vendor_sku == v)).map (fun x => x.total_qty.toNat) := by
          rw [hfp]
        have : (initRec (pass1Rows (load_duoplane_mapping duoRows) raws)
            (trackUpcs raws).1 (trackUpcs raws).2 r).qty = r.total_qty.toNat := rfl
        rw [this, ← hq, ← hsum, List.map_cons, List.sum_cons]
      · intro hl hhl
        have hfind := pass1RowsFrom_filter_find_loc (load_duoplane_mapping duoRows) v hl
          hv raws 0
        rw [hpp, hfp] at hfind
        have hlocs : (t.foldl recStep (initRec (pass1Rows (load_duoplane_mapping duoRows)
            raws) (trackUpcs raws).1 (trackUpcs raws).2 r)).locations
            = (r :: t).foldl locStep [] := by
          rw [foldl_recStep_locations, List.foldl_cons]
          rfl
        rw [hlocs, lookupA_foldl_locStep hl hhl]
        cases hf2 : (r :: t).reverse.find? (fun x => x.location == hl) with
        | some m =>
          rw [hf2] at hfind
          rw [← hfind]
          rfl
        | none =>
          rw [hf2] at hfind
          rw [← hfind]
          rfl

/-- Witness for C5 at a two-row duplicate feed: one record under `"V"`,
qty 2 + 3 = 5, and location `L1` carrying the last-seen clamped
quantity 7; the loaded key list is duplicate-free. -/
theorem C5_witness :
    ((load_inventory_data [] exRawsDupSku).map Prod.fst).Nodup ∧
    ∃ rec, lookupA (load_inventory_data [] exRawsDupSku) "V" = some rec ∧
      rec.qty = 5 ∧ lookupA rec.locations "L1" = some 7 := by
  obtain ⟨hnd, rec, hlook, hqty, hloc⟩ :=
    C5_duplicate_sku_merge [] exRawsDupSku "V" (by decide) (by decide)
  refine ⟨hnd, rec, hlook, ?_, ?_⟩
  · rw [hqty]
    decide
  · rw [hloc "L1" (by decide)]
    decide

end PDC
